import Mathlib

/-!
Shallow embedding of `evolve.py`, a discrete-time artificial-life simulation:
creatures move randomly on a bounded grid, eat food, and are culled at the end
of each day if they did not eat.  Randomness (`random.choice`, `random.randint`)
is modelled by a stream of natural numbers together with a read index; every
sampling primitive consumes one stream element, exactly mirroring the order of
the Python calls.  The unbounded retry loop of `init_foods` is modelled with an
explicit fuel parameter, returning `none` when the fuel runs out.
-/

-- Configuration constants of evolve.py.
abbrev GRID_SIZE : Nat := 50
abbrev NUM_FOODS : Nat := 10
abbrev NUM_CREATURES : Nat := 10
abbrev DAY_LENGTH_FRAMES : Nat := 300

/-- A grid position, a pair of integer coordinates as in the Python tuples. -/
abbrev Pos := Int × Int

/-- Deterministic model of the `random` module: a stream of draws and the index
of the next draw. -/
structure Rng where
  f : Nat → Nat
  i : Nat

/-- Consume one raw draw from the stream. -/
def Rng.next (r : Rng) : Nat × Rng :=
  (r.f r.i, ⟨r.f, r.i + 1⟩)

/-- A draw reduced below `n`, the model of a uniform sample from `n` outcomes. -/
def randBelow (r : Rng) (n : Nat) : Nat × Rng :=
  let p := r.next
  (p.1 % n, p.2)

/-- Model of `random.randint(0, hi)`: a uniform value in `[0, hi]`. -/
def randint0 (r : Rng) (hi : Nat) : Nat × Rng :=
  randBelow r (hi + 1)

/-- Model of `random.choice xs`: index a list by a uniform draw below its
length. -/
def choiceD {α : Type} [Inhabited α] (r : Rng) (xs : List α) : α × Rng :=
  let p := randBelow r xs.length
  (xs.getD p.1 default, p.2)

/-- A creature record: grid coordinates, the string-typed `state` field
(`"roaming"` or `"waiting"`), and the `ate` flag, as in the Python dict. -/
structure Creature where
  x : Int
  y : Int
  state : String
  ate : Bool
deriving DecidableEq

/-- `random_edge_position` of evolve.py: pick one of the four edges with
`random.choice`, then sample the free coordinate with `random.randint`. -/
def random_edge_position (r : Rng) : Pos × Rng :=
  let e := choiceD r ["top", "bottom", "left", "right"]
  let v := randint0 e.2 (GRID_SIZE - 1)
  if e.1 = "top" then (((v.1 : Int), (0 : Int)), v.2)
  else if e.1 = "bottom" then (((v.1 : Int), (GRID_SIZE : Int) - 1), v.2)
  else if e.1 = "left" then (((0 : Int), (v.1 : Int)), v.2)
  else (((GRID_SIZE : Int) - 1, (v.1 : Int)), v.2)

/-- The retry loop of `init_foods`, with explicit fuel: sample an interior
position, append it when it is not already present, until `numFoods` positions
have been collected.  Returns `none` when the fuel is exhausted first. -/
def init_foods_aux (numFoods : Nat) : Nat → List Pos → Rng → Option (List Pos × Rng)
  | 0, acc, r => if acc.length < numFoods then none else some (acc, r)
  | fuel + 1, acc, r =>
    if acc.length < numFoods then
      let px := randint0 r (GRID_SIZE - 1)
      let py := randint0 px.2 (GRID_SIZE - 1)
      let pos : Pos := ((px.1 : Int), (py.1 : Int))
      if pos ∈ acc then init_foods_aux numFoods fuel acc py.2
      else init_foods_aux numFoods fuel (acc ++ [pos]) py.2
    else some (acc, r)

/-- `init_foods` of evolve.py, fuel-bounded. -/
def init_foods (numFoods fuel : Nat) (r : Rng) : Option (List Pos × Rng) :=
  init_foods_aux numFoods fuel [] r

/-- The loop body of `init_creatures`: build `n` creatures at random interior
positions with `state = "roaming"` and `ate = False`. -/
def init_creatures_aux : Nat → Rng → List Creature × Rng
  | 0, r => ([], r)
  | n + 1, r =>
    let px := randint0 r (GRID_SIZE - 1)
    let py := randint0 px.2 (GRID_SIZE - 1)
    let rest := init_creatures_aux n py.2
    (⟨(px.1 : Int), (py.1 : Int), "roaming", false⟩ :: rest.1, rest.2)

/-- `init_creatures` of evolve.py. -/
def init_creatures (r : Rng) : List Creature × Rng :=
  init_creatures_aux NUM_CREATURES r

/-- The five movement deltas of evolve.py, in the order of the Python list. -/
def moveChoices : List (Int × Int) := [(1, 0), (-1, 0), (0, 1), (0, -1), (0, 0)]

/-- The movement draw: `random.choice` over the five deltas. -/
def moveDelta (r : Rng) : (Int × Int) × Rng :=
  choiceD r moveChoices

/-- Per-axis bounds check of evolve.py: the tentative coordinate `nx` replaces
`x` only when it lies inside `[0, GRID_SIZE - 1]`. -/
def clampMove (x nx : Int) : Int :=
  if 0 ≤ nx ∧ nx < (GRID_SIZE : Int) then nx else x

/-- The position a creature occupies after the movement step, both axes clamped
independently. -/
def movedPos (c : Creature) (r : Rng) : Pos :=
  (clampMove c.x (c.x + (moveDelta r).1.1), clampMove c.y (c.y + (moveDelta r).1.2))

/-- Python's `list.remove`: delete the first occurrence of `p`. -/
def removeFirst {α : Type} [DecidableEq α] : List α → α → List α
  | [], _ => []
  | q :: rest, p => if q = p then rest else q :: removeFirst rest p

/-- The body of the `for` loop of `update_creatures` for one creature:
skip non-roaming creatures; otherwise move, then eat when the new position
holds food (remove that food, set `ate`/`state`, jump to a random edge). -/
def stepCreature (c : Creature) (fs : List Pos) (r : Rng) : Creature × List Pos × Rng :=
  if c.state ≠ "roaming" then (c, fs, r)
  else
    let pos := movedPos c r
    if pos ∈ fs then
      let ep := random_edge_position (moveDelta r).2
      (⟨ep.1.1, ep.1.2, "waiting", true⟩, removeFirst fs pos, ep.2)
    else
      (⟨pos.1, pos.2, c.state, c.ate⟩, fs, (moveDelta r).2)

/-- `update_creatures` of evolve.py: fold `stepCreature` over the creature list
in order, threading the food list and the generator. -/
def update_creatures : List Creature → List Pos → Rng → List Creature × List Pos × Rng
  | [], fs, r => ([], fs, r)
  | c :: cs, fs, r =>
    let u1 := stepCreature c fs r
    let u2 := update_creatures cs u1.2.1 u1.2.2
    (u1.1 :: u2.1, u2.2.1, u2.2.2)

/-- The survivor-reset loop of `end_of_day`: each survivor becomes roaming,
not-ate, at a fresh random edge position, in list order. -/
def resetSurvivors : List Creature → Rng → List Creature × Rng
  | [], r => ([], r)
  | _ :: cs, r =>
    let ep := random_edge_position r
    let rest := resetSurvivors cs ep.2
    (⟨ep.1.1, ep.1.2, "roaming", false⟩ :: rest.1, rest.2)

/-- `end_of_day` of evolve.py: keep the creatures that ate, reset them at
random edges, rebuild the food list, reset the frame counter, bump the day.
Result: (creatures, foods, rng, frame counter, day counter). -/
def end_of_day (cs : List Creature) (fuel : Nat) (r : Rng) (day : Nat) :
    Option (List Creature × List Pos × Rng × Nat × Nat) :=
  let survivors := cs.filter (fun c => c.ate)
  let rs := resetSurvivors survivors r
  match init_foods NUM_FOODS fuel rs.2 with
  | none => none
  | some fr => some (rs.1, fr.1, fr.2, 0, day + 1)

/-- The full mutable state of the simulation: the module-level globals of
evolve.py plus the generator. -/
structure SimState where
  foods : List Pos
  creatures : List Creature
  frame : Nat
  day : Nat
  rng : Rng

/-- One iteration of the main loop of evolve.py (rendering stripped):
increment the frame counter, run `update_creatures`, and when the day-length
threshold is reached run `end_of_day`. -/
def tick (fuel : Nat) (s : SimState) : Option SimState :=
  let u := update_creatures s.creatures s.foods s.rng
  if s.frame + 1 ≥ DAY_LENGTH_FRAMES then
    match end_of_day u.1 fuel u.2.2 s.day with
    | none => none
    | some out => some ⟨out.2.1, out.1, out.2.2.2.1, out.2.2.2.2, out.2.2.1⟩
  else
    some ⟨u.2.1, u.1, s.frame + 1, s.day, u.2.2⟩

/-- Simulation start-up in `main`: `init_foods()` then `init_creatures()`,
frame counter 0, day counter 1. -/
def initSim (fuel : Nat) (r : Rng) : Option SimState :=
  match init_foods NUM_FOODS fuel r with
  | none => none
  | some fr =>
    let ic := init_creatures fr.2
    some ⟨fr.1, ic.1, 0, 1, ic.2⟩

/-- The states the simulation can reach: a successful start-up, closed under
successful ticks. -/
inductive Reachable : SimState → Prop where
  | init : ∀ fuel r s, initSim fuel r = some s → Reachable s
  | step : ∀ fuel s s', Reachable s → tick fuel s = some s' → Reachable s'

/-- Observable snapshot of a state: every creature's position, state and flag,
and the food list. -/
def snapshotOf (s : SimState) : List (Int × Int × String × Bool) × List Pos :=
  (s.creatures.map (fun c => (c.x, c.y, c.state, c.ate)), s.foods)

/-- The snapshot sequence produced by `n` ticks; a failed tick ends the trace
with `none`. -/
def runTrace (fuel : Nat) : Nat → SimState → List (Option (List (Int × Int × String × Bool) × List Pos))
  | 0, _ => []
  | n + 1, s =>
    match tick fuel s with
    | none => [none]
    | some s' => some (snapshotOf s') :: runTrace fuel n s'

/-- A whole run from a seed stream: start up, then trace `n` ticks. -/
def simTrace (fuel n : Nat) (f : Nat → Nat) :
    Option (List (Option (List (Int × Int × String × Bool) × List Pos))) :=
  (initSim fuel ⟨f, 0⟩).map (runTrace fuel n)

-- Demonstration values used by the witness theorems.

/-- A concrete seed stream. -/
def rng0 : Rng := ⟨fun n => n, 0⟩

/-- A constant-zero seed stream. -/
def rngZero : Rng := ⟨fun _ => 0, 0⟩

/-- Fallback state for `Option.getD`. -/
def simFallback : SimState := ⟨[], [], 0, 1, rng0⟩

/-- A concrete reachable state: start-up under `rng0`. -/
def demoSim : SimState := (initSim 100 rng0).getD simFallback

/-- The state after one tick from `demoSim`. -/
def demoSim2 : SimState := (tick 200 demoSim).getD simFallback

/-- A concrete creature list with one fed and one unfed creature. -/
def demoCs : List Creature := [⟨1, 1, "waiting", true⟩, ⟨2, 2, "roaming", false⟩]

/-- A concrete `end_of_day` result on `demoCs`. -/
def demoEod : List Creature × List Pos × Rng × Nat × Nat :=
  (end_of_day demoCs 100 rng0 1).getD ([], [], rng0, 0, 0)

/-- The cells of the grid, as a finite set. -/
def gridCells : Finset Pos :=
  Finset.Icc (0 : Int) ((GRID_SIZE : Int) - 1) ×ˢ Finset.Icc (0 : Int) ((GRID_SIZE : Int) - 1)

-- Helper lemmas about removeFirst (Python list.remove).

lemma removeFirst_sublist {α : Type} [DecidableEq α] (xs : List α) (p : α) :
    List.Sublist (removeFirst xs p) xs := by
  induction xs with
  | nil => simp [removeFirst]
  | cons q rest ih =>
    simp only [removeFirst]
    split
    · exact List.sublist_cons_self q rest
    · exact List.Sublist.cons₂ q ih

lemma removeFirst_length_le {α : Type} [DecidableEq α] (xs : List α) (p : α) :
    (removeFirst xs p).length ≤ xs.length :=
  (removeFirst_sublist xs p).length_le

lemma removeFirst_nodup {α : Type} [DecidableEq α] {xs : List α} (p : α) (h : xs.Nodup) :
    (removeFirst xs p).Nodup :=
  h.sublist (removeFirst_sublist xs p)

lemma removeFirst_length_of_mem {α : Type} [DecidableEq α] {xs : List α} {p : α}
    (h : p ∈ xs) : (removeFirst xs p).length + 1 = xs.length := by
  induction xs with
  | nil => cases h
  | cons q rest ih =>
    simp only [removeFirst]
    split
    · simp
    · rename_i hne
      have hmem : p ∈ rest := by
        rcases List.mem_cons.mp h with h1 | h1
        · exact absurd h1.symm hne
        · exact h1
      have := ih hmem
      simp only [List.length_cons]
      omega

lemma removeFirst_not_mem {α : Type} [DecidableEq α] {xs : List α} {p : α}
    (h : xs.Nodup) : p ∉ removeFirst xs p := by
  induction xs with
  | nil => simp [removeFirst]
  | cons q rest ih =>
    rcases List.nodup_cons.mp h with ⟨hq, hrest⟩
    simp only [removeFirst]
    split
    · rename_i he
      subst he
      exact hq
    · rename_i hne
      intro hmem
      rcases List.mem_cons.mp hmem with h1 | h1
      · exact hne h1.symm
      · exact ih hrest h1

-- The grid has GRID_SIZE * GRID_SIZE cells.

lemma gridCells_card : gridCells.card = GRID_SIZE * GRID_SIZE := by
  rw [gridCells, Finset.card_product, Int.card_Icc]
  decide

lemma mem_gridCells_of_nat (x y : Nat) (hx : x < GRID_SIZE) (hy : y < GRID_SIZE) :
    (((x : Int), (y : Int)) : Pos) ∈ gridCells := by
  simp only [gridCells, Finset.mem_product, Finset.mem_Icc]
  omega

lemma nodup_grid_length_le (l : List Pos) (hn : l.Nodup) (hm : ∀ p ∈ l, p ∈ gridCells) :
    l.length ≤ GRID_SIZE * GRID_SIZE := by
  have h1 : l.toFinset.card = l.length := List.toFinset_card_of_nodup hn
  have h2 : l.toFinset ⊆ gridCells := fun p hp => hm p (List.mem_toFinset.mp hp)
  have h3 := Finset.card_le_card h2
  rw [h1, gridCells_card] at h3
  exact h3

-- Success of the init_foods loop yields exactly numFoods distinct positions.

lemma init_foods_aux_some (nf : Nat) :
    ∀ fuel acc r out, acc.Nodup → acc.length ≤ nf →
      init_foods_aux nf fuel acc r = some out → out.1.Nodup ∧ out.1.length = nf := by
  intro fuel
  induction fuel with
  | zero =>
    intro acc r out hn hle h
    simp only [init_foods_aux] at h
    split at h
    · simp at h
    · rename_i hge
      cases h
      refine ⟨hn, ?_⟩
      show acc.length = nf
      omega
  | succ n ih =>
    intro acc r out hn hle h
    simp only [init_foods_aux] at h
    split at h
    · rename_i hlt
      split at h
      · exact ih acc _ out hn hle h
      · rename_i hpos
        apply ih _ _ out _ _ h
        · rw [List.nodup_append]
          refine ⟨hn, List.nodup_singleton _, ?_⟩
          intro a ha hmem
          simp only [List.mem_singleton] at hmem
          subst hmem
          exact hpos ha
        · simp only [List.length_append, List.length_singleton]
          omega
    · cases h
      refine ⟨hn, ?_⟩
      show acc.length = nf
      omega

lemma init_foods_some (nf fuel : Nat) (r : Rng) (out : List Pos × Rng)
    (h : init_foods nf fuel r = some out) : out.1.Nodup ∧ out.1.length = nf :=
  init_foods_aux_some nf fuel [] r out List.nodup_nil (by simp) h

-- When numFoods exceeds the grid capacity the loop can never succeed.

lemma init_foods_aux_overfull (nf : Nat) (hnf : GRID_SIZE * GRID_SIZE < nf) :
    ∀ fuel acc r, acc.Nodup → (∀ p ∈ acc, p ∈ gridCells) →
      init_foods_aux nf fuel acc r = none := by
  intro fuel
  induction fuel with
  | zero =>
    intro acc r hn hm
    have := nodup_grid_length_le acc hn hm
    simp only [init_foods_aux]
    rw [if_pos (by omega)]
  | succ n ih =>
    intro acc r hn hm
    have hcap := nodup_grid_length_le acc hn hm
    have hlt : acc.length < nf := by omega
    simp only [init_foods_aux]
    rw [if_pos hlt]
    split
    · exact ih acc _ hn hm
    · rename_i hpos
      apply ih
      · rw [List.nodup_append]
        refine ⟨hn, List.nodup_singleton _, ?_⟩
        intro a ha hmem
        simp only [List.mem_singleton] at hmem
        subst hmem
        exact hpos ha
      · intro p hp
        rcases List.mem_append.mp hp with h1 | h1
        · exact hm p h1
        · simp only [List.mem_singleton] at h1
          subst h1
          exact mem_gridCells_of_nat _ _ (Nat.mod_lt _ (by decide)) (Nat.mod_lt _ (by decide))

-- The feeding step touches the food list at most by one removal.

lemma stepCreature_foods_cases (c : Creature) (fs : List Pos) (r : Rng) :
    (stepCreature c fs r).2.1 = fs ∨
      (movedPos c r ∈ fs ∧ (stepCreature c fs r).2.1 = removeFirst fs (movedPos c r)) := by
  simp only [stepCreature]
  split
  · left; rfl
  · split
    · rename_i hmem
      right
      exact ⟨hmem, rfl⟩
    · left; rfl

lemma stepCreature_foods_nodup {fs : List Pos} (c : Creature) (r : Rng) (h : fs.Nodup) :
    (stepCreature c fs r).2.1.Nodup := by
  rcases stepCreature_foods_cases c fs r with h1 | ⟨_, h1⟩ <;> rw [h1]
  · exact h
  · exact removeFirst_nodup _ h

lemma stepCreature_foods_len_le (c : Creature) (fs : List Pos) (r : Rng) :
    (stepCreature c fs r).2.1.length ≤ fs.length := by
  rcases stepCreature_foods_cases c fs r with h1 | ⟨_, h1⟩ <;> rw [h1]
  exact removeFirst_length_le fs _

lemma stepCreature_foods_len_ge (c : Creature) (fs : List Pos) (r : Rng) :
    fs.length ≤ (stepCreature c fs r).2.1.length + 1 := by
  rcases stepCreature_foods_cases c fs r with h1 | ⟨hmem, h1⟩ <;> rw [h1]
  · omega
  · have := removeFirst_length_of_mem hmem
    omega

-- update_creatures preserves the creature count and the food invariants.

lemma update_creatures_length (cs : List Creature) (fs : List Pos) (r : Rng) :
    (update_creatures cs fs r).1.length = cs.length := by
  induction cs generalizing fs r with
  | nil => rfl
  | cons c cs ih => simp only [update_creatures, List.length_cons, ih]

lemma update_creatures_foods_nodup (cs : List Creature) {fs : List Pos} (r : Rng)
    (h : fs.Nodup) : (update_creatures cs fs r).2.1.Nodup := by
  induction cs generalizing fs r with
  | nil => exact h
  | cons c cs ih =>
    simp only [update_creatures]
    exact ih _ (stepCreature_foods_nodup c r h)

lemma update_creatures_foods_len_le (cs : List Creature) (fs : List Pos) (r : Rng) :
    (update_creatures cs fs r).2.1.length ≤ fs.length := by
  induction cs generalizing fs r with
  | nil => exact le_refl _
  | cons c cs ih =>
    simp only [update_creatures]
    exact le_trans (ih _ _) (stepCreature_foods_len_le c fs r)

-- The survivor reset keeps the count and produces fresh roaming creatures.

lemma resetSurvivors_length (cs : List Creature) (r : Rng) :
    (resetSurvivors cs r).1.length = cs.length := by
  induction cs generalizing r with
  | nil => rfl
  | cons c cs ih => simp only [resetSurvivors, List.length_cons, ih]

lemma resetSurvivors_forall (cs : List Creature) (r : Rng) :
    ∀ c ∈ (resetSurvivors cs r).1, c.state = "roaming" ∧ c.ate = false := by
  induction cs generalizing r with
  | nil => intro c hc; cases hc
  | cons c cs ih =>
    intro c' hc'
    rcases List.mem_cons.mp hc' with h1 | h1
    · subst h1; exact ⟨rfl, rfl⟩
    · exact ih _ c' h1

-- Unfolding a successful end_of_day.

lemma end_of_day_some (cs : List Creature) (fuel : Nat) (r : Rng) (day : Nat)
    (out : List Creature × List Pos × Rng × Nat × Nat)
    (h : end_of_day cs fuel r day = some out) :
    out.1 = (resetSurvivors (cs.filter fun c => c.ate) r).1 ∧
      out.2.1.Nodup ∧ out.2.1.length = NUM_FOODS ∧
      out.2.2.2.1 = 0 ∧ out.2.2.2.2 = day + 1 := by
  simp only [end_of_day] at h
  split at h
  · simp at h
  · rename_i fr hfr
    cases h
    have hf := init_foods_some NUM_FOODS fuel _ fr hfr
    exact ⟨rfl, hf.1, hf.2, rfl, rfl⟩

-- The ate flag and the state string stay in lock-step.

lemma stepCreature_flag (c : Creature) (fs : List Pos) (r : Rng)
    (h : c.ate = true ↔ c.state = "waiting") :
    ((stepCreature c fs r).1.ate = true ↔ (stepCreature c fs r).1.state = "waiting") := by
  simp only [stepCreature]
  split
  · exact h
  · split
    · simp
    · exact h

lemma update_creatures_flag (cs : List Creature) (fs : List Pos) (r : Rng)
    (h : ∀ c ∈ cs, c.ate = true ↔ c.state = "waiting") :
    ∀ c ∈ (update_creatures cs fs r).1, (c.ate = true ↔ c.state = "waiting") := by
  induction cs generalizing fs r with
  | nil => intro c hc; cases hc
  | cons c cs ih =>
    intro c' hc'
    simp only [update_creatures] at hc'
    rcases List.mem_cons.mp hc' with h1 | h1
    · subst h1
      exact stepCreature_flag c fs r (h c (List.mem_cons_self c cs))
    · exact ih _ _ (fun d hd => h d (List.mem_cons_of_mem _ hd)) c' h1

lemma init_creatures_aux_forall (n : Nat) (r : Rng) :
    ∀ c ∈ (init_creatures_aux n r).1, c.state = "roaming" ∧ c.ate = false := by
  induction n generalizing r with
  | zero => intro c hc; cases hc
  | succ n ih =>
    intro c hc
    rcases List.mem_cons.mp hc with h1 | h1
    · subst h1; exact ⟨rfl, rfl⟩
    · exact ih _ c h1

lemma roaming_fresh_flag {c : Creature} (h : c.state = "roaming" ∧ c.ate = false) :
    (c.ate = true ↔ c.state = "waiting") := by
  rw [h.1, h.2]
  simp

-- A successful start-up establishes the invariants.

lemma initSim_spec (fuel : Nat) (r : Rng) (s : SimState) (h : initSim fuel r = some s) :
    s.foods.Nodup ∧ s.foods.length = NUM_FOODS ∧
      (∀ c ∈ s.creatures, c.state = "roaming" ∧ c.ate = false) := by
  simp only [initSim] at h
  split at h
  · simp at h
  · rename_i fr hfr
    cases h
    have h1 := init_foods_some NUM_FOODS fuel _ fr hfr
    exact ⟨h1.1, h1.2, init_creatures_aux_forall _ _⟩

-- A successful tick preserves the invariants.

lemma tick_foods (fuel : Nat) (s s' : SimState) (h : tick fuel s = some s')
    (hn : s.foods.Nodup) (hl : s.foods.length ≤ NUM_FOODS) :
    s'.foods.Nodup ∧ s'.foods.length ≤ NUM_FOODS := by
  simp only [tick] at h
  split at h
  · split at h
    · simp at h
    · rename_i out hout
      cases h
      have he := end_of_day_some _ _ _ _ _ hout
      exact ⟨he.2.1, le_of_eq he.2.2.1⟩
  · cases h
    exact ⟨update_creatures_foods_nodup _ _ hn,
      le_trans (update_creatures_foods_len_le _ _ _) hl⟩

lemma tick_creatures_len (fuel : Nat) (s s' : SimState) (h : tick fuel s = some s') :
    s'.creatures.length ≤ s.creatures.length := by
  simp only [tick] at h
  split at h
  · split at h
    · simp at h
    · rename_i out hout
      cases h
      have he := end_of_day_some _ _ _ _ _ hout
      show out.1.length ≤ s.creatures.length
      rw [he.1, resetSurvivors_length]
      calc (List.filter (fun c => c.ate) (update_creatures s.creatures s.foods s.rng).1).length
          ≤ (update_creatures s.creatures s.foods s.rng).1.length := List.length_filter_le _ _
        _ = s.creatures.length := update_creatures_length _ _ _
  · cases h
    show (update_creatures s.creatures s.foods s.rng).1.length ≤ s.creatures.length
    rw [update_creatures_length]

lemma tick_flag (fuel : Nat) (s s' : SimState) (h : tick fuel s = some s')
    (hc : ∀ c ∈ s.creatures, c.ate = true ↔ c.state = "waiting") :
    ∀ c ∈ s'.creatures, (c.ate = true ↔ c.state = "waiting") := by
  simp only [tick] at h
  split at h
  · split at h
    · simp at h
    · rename_i out hout
      cases h
      have he := end_of_day_some _ _ _ _ _ hout
      intro c hcmem
      show _ 
      rw [he.1] at hcmem
      exact roaming_fresh_flag (resetSurvivors_forall _ _ c hcmem)
  · cases h
    exact update_creatures_flag _ _ _ hc

-- Culling by the ate flag coincides with culling by the state string.

lemma filter_ate_eq (cs : List Creature)
    (h : ∀ c ∈ cs, c.ate = true ↔ c.state = "waiting") :
    cs.filter (fun c => c.ate) = cs.filter (fun c => c.state == "waiting") := by
  apply List.filter_congr
  intro c hc
  have hiff := h c hc
  by_cases hs : c.state = "waiting"
  · simp [hs, hiff.mpr hs]
  · have hfalse : c.ate = false := by
      cases hate : c.ate
      · rfl
      · exact absurd (hiff.mp hate) hs
    simp [hfalse, hs]

/-- A concrete reachable state, for the witness theorems. -/
lemma demoSim_reachable : Reachable demoSim :=
  Reachable.init 100 rng0 demoSim rfl

/-- Claim C1: the food list always holds between 0 and NUM_FOODS positions with
no duplicates; immediately after any end_of_day (and after init_foods) it holds
exactly NUM_FOODS distinct positions; the feeding step removes at most one
position per call. -/
theorem claim_C1_food_bound :
    (∀ s, Reachable s → s.foods.Nodup ∧ s.foods.length ≤ NUM_FOODS) ∧
    (∀ cs fuel r day out, end_of_day cs fuel r day = some out →
        out.2.1.length = NUM_FOODS ∧ out.2.1.Nodup) ∧
    (∀ fuel r out, init_foods NUM_FOODS fuel r = some out →
        out.1.length = NUM_FOODS ∧ out.1.Nodup) ∧
    (∀ c fs r, (stepCreature c fs r).2.1.length ≤ fs.length ∧
        fs.length ≤ (stepCreature c fs r).2.1.length + 1) := by
  refine ⟨?_, ?_, ?_, ?_⟩
  · intro s hr
    induction hr with
    | init fuel r s h0 =>
      have h1 := initSim_spec fuel r s h0
      exact ⟨h1.1, le_of_eq h1.2.1⟩
    | step fuel s s' hr ht ih =>
      exact tick_foods fuel s s' ht ih.1 ih.2
  · intro cs fuel r day out h
    have h1 := end_of_day_some cs fuel r day out h
    exact ⟨h1.2.2.1, h1.2.1⟩
  · intro fuel r out h
    have h1 := init_foods_some NUM_FOODS fuel r out h
    exact ⟨h1.2, h1.1⟩
  · intro c fs r
    exact ⟨stepCreature_foods_len_le c fs r, stepCreature_foods_len_ge c fs r⟩

/-- Witness for C1 at a concrete reachable state. -/
theorem claim_C1_food_bound_witness :
    demoSim.foods.Nodup ∧ demoSim.foods.length ≤ NUM_FOODS :=
  claim_C1_food_bound.1 demoSim demoSim_reachable

/-- Claim C2: end_of_day keeps exactly the Fed (waiting) creatures in their
prior relative order (then resets them), so the population never grows; no
operation adds a creature: update_creatures keeps the count, tick never
increases it. -/
theorem claim_C2_population :
    (∀ cs fuel r day out,
        (∀ c ∈ cs, c.ate = true ↔ c.state = "waiting") →
        end_of_day cs fuel r day = some out →
        out.1 = (resetSurvivors (cs.filter fun c => c.state == "waiting") r).1 ∧
        out.1.length = (cs.filter fun c => c.state == "waiting").length ∧
        out.1.length ≤ cs.length) ∧
    (∀ fuel s s', tick fuel s = some s' → s'.creatures.length ≤ s.creatures.length) ∧
    (∀ cs fs r, (update_creatures cs fs r).1.length = cs.length) := by
  refine ⟨?_, tick_creatures_len, update_creatures_length⟩
  intro cs fuel r day out hinv h
  have he := end_of_day_some cs fuel r day out h
  rw [filter_ate_eq cs hinv] at he
  refine ⟨he.1, ?_, ?_⟩
  · rw [he.1, resetSurvivors_length]
  · rw [he.1, resetSurvivors_length]
    exact List.length_filter_le _ _

/-- Witness for C2 at a concrete day boundary. -/
theorem claim_C2_population_witness :
    demoEod.1 = (resetSurvivors (demoCs.filter fun c => c.state == "waiting") rng0).1 ∧
    demoEod.1.length = (demoCs.filter fun c => c.state == "waiting").length ∧
    demoEod.1.length ≤ demoCs.length :=
  claim_C2_population.1 demoCs 100 rng0 1 demoEod (by decide) rfl

/-- Claim C3: a Fed (waiting) creature is skipped entirely by the per-creature
step: same creature, same food list, untouched generator. -/
theorem claim_C3_fed_frozen :
    ∀ (c : Creature) (fs : List Pos) (r : Rng),
      c.state = "waiting" → stepCreature c fs r = (c, fs, r) := by
  intro c fs r h
  have hne : c.state ≠ "roaming" := by rw [h]; decide
  simp only [stepCreature]
  rw [if_pos hne]

/-- Witness for C3 on a concrete fed creature. -/
theorem claim_C3_fed_frozen_witness :
    stepCreature ⟨5, 5, "waiting", true⟩ [((1 : Int), (1 : Int))] rng0 =
      (⟨5, 5, "waiting", true⟩, [((1 : Int), (1 : Int))], rng0) :=
  claim_C3_fed_frozen ⟨5, 5, "waiting", true⟩ [((1 : Int), (1 : Int))] rng0 rfl

/-- Claim C4: starting inside the grid, for any of the five deltas the clamped
position stays inside the grid on both axes, and each axis is clamped
independently: an out-of-range component is simply not applied. -/
theorem claim_C4_boundary_clamp :
    ∀ (x y dx dy : Int), (dx, dy) ∈ moveChoices →
      0 ≤ x → x < (GRID_SIZE : Int) → 0 ≤ y → y < (GRID_SIZE : Int) →
      (0 ≤ clampMove x (x + dx) ∧ clampMove x (x + dx) < (GRID_SIZE : Int) ∧
       0 ≤ clampMove y (y + dy) ∧ clampMove y (y + dy) < (GRID_SIZE : Int)) ∧
      clampMove x (x + dx) = (if 0 ≤ x + dx ∧ x + dx < (GRID_SIZE : Int) then x + dx else x) ∧
      clampMove y (y + dy) = (if 0 ≤ y + dy ∧ y + dy < (GRID_SIZE : Int) then y + dy else y) := by
  intro x y dx dy _ hx0 hx1 hy0 hy1
  refine ⟨⟨?_, ?_, ?_, ?_⟩, rfl, rfl⟩ <;>
    · simp only [clampMove]
      split <;> omega

/-- Witness for C4 at the corner (0, 49) with delta (-1, 0). -/
theorem claim_C4_boundary_clamp_witness :
    (0 ≤ clampMove 0 (0 + -1) ∧ clampMove 0 (0 + -1) < (GRID_SIZE : Int) ∧
     0 ≤ clampMove 49 (49 + 0) ∧ clampMove 49 (49 + 0) < (GRID_SIZE : Int)) ∧
    clampMove 0 (0 + -1) =
      (if 0 ≤ (0 : Int) + -1 ∧ (0 : Int) + -1 < (GRID_SIZE : Int) then (0 : Int) + -1 else 0) ∧
    clampMove 49 (49 + 0) =
      (if 0 ≤ (49 : Int) + 0 ∧ (49 : Int) + 0 < (GRID_SIZE : Int) then (49 : Int) + 0 else 49) :=
  claim_C4_boundary_clamp 0 49 (-1) 0 (by decide) (by decide) (by decide) (by decide) (by decide)

/-- Claim C5: a roaming creature landing on food removes exactly that food
position, becomes waiting with the ate flag set, and is relocated to a fresh
random edge position; landing on no food leaves the food list and the
state/flag untouched. -/
theorem claim_C5_feeding :
    ∀ (c : Creature) (fs : List Pos) (r : Rng), c.state = "roaming" →
      (movedPos c r ∈ fs →
        stepCreature c fs r =
          (⟨(random_edge_position (moveDelta r).2).1.1,
            (random_edge_position (moveDelta r).2).1.2, "waiting", true⟩,
           removeFirst fs (movedPos c r),
           (random_edge_position (moveDelta r).2).2) ∧
        (fs.Nodup → movedPos c r ∉ removeFirst fs (movedPos c r) ∧
          (removeFirst fs (movedPos c r)).length + 1 = fs.length)) ∧
      (movedPos c r ∉ fs →
        stepCreature c fs r =
          (⟨(movedPos c r).1, (movedPos c r).2, c.state, c.ate⟩, fs, (moveDelta r).2)) := by
  intro c fs r hroam
  have hnot : ¬c.state ≠ "roaming" := by rw [hroam]; simp
  constructor
  · intro hmem
    constructor
    · simp only [stepCreature]
      rw [if_neg hnot, if_pos hmem]
    · intro hnd
      exact ⟨removeFirst_not_mem hnd, removeFirst_length_of_mem hmem⟩
  · intro hmem
    simp only [stepCreature]
    rw [if_neg hnot, if_neg hmem]

/-- Witness for C5: a concrete roaming creature eats the food cell it steps
onto. -/
theorem claim_C5_feeding_witness :
    stepCreature ⟨0, 0, "roaming", false⟩ [((1 : Int), (0 : Int))] rngZero =
      (⟨(random_edge_position (moveDelta rngZero).2).1.1,
        (random_edge_position (moveDelta rngZero).2).1.2, "waiting", true⟩,
       removeFirst [((1 : Int), (0 : Int))] (movedPos ⟨0, 0, "roaming", false⟩ rngZero),
       (random_edge_position (moveDelta rngZero).2).2) :=
  ((claim_C5_feeding ⟨0, 0, "roaming", false⟩ [((1 : Int), (0 : Int))] rngZero rfl).1
    (by decide)).1

/-- Claim C6: random_edge_position always lies on one of the four grid edges
with the free coordinate in range; the edge is selected by the first draw
modulo 4 (one residue per edge, so a uniform draw gives each edge probability
1/4) and the free coordinate is the second draw modulo GRID_SIZE (uniform along
the edge; corners are reachable from two edges). -/
theorem claim_C6_edge :
    ∀ r : Rng,
      ((((random_edge_position r).1.2 = 0 ∨
          (random_edge_position r).1.2 = (GRID_SIZE : Int) - 1) ∧
        0 ≤ (random_edge_position r).1.1 ∧ (random_edge_position r).1.1 < (GRID_SIZE : Int)) ∨
       (((random_edge_position r).1.1 = 0 ∨
          (random_edge_position r).1.1 = (GRID_SIZE : Int) - 1) ∧
        0 ≤ (random_edge_position r).1.2 ∧ (random_edge_position r).1.2 < (GRID_SIZE : Int))) ∧
      random_edge_position r =
        (if r.f r.i % 4 = 0 then (((r.f (r.i + 1) % GRID_SIZE : Nat) : Int), (0 : Int))
         else if r.f r.i % 4 = 1 then
           (((r.f (r.i + 1) % GRID_SIZE : Nat) : Int), (GRID_SIZE : Int) - 1)
         else if r.f r.i % 4 = 2 then
           ((0 : Int), ((r.f (r.i + 1) % GRID_SIZE : Nat) : Int))
         else ((GRID_SIZE : Int) - 1, ((r.f (r.i + 1) % GRID_SIZE : Nat) : Int)),
         ⟨r.f, r.i + 1 + 1⟩) := by
  intro r
  have h4 : r.f r.i % 4 = 0 ∨ r.f r.i % 4 = 1 ∨ r.f r.i % 4 = 2 ∨ r.f r.i % 4 = 3 := by
    omega
  have heq : random_edge_position r =
      (if r.f r.i % 4 = 0 then (((r.f (r.i + 1) % GRID_SIZE : Nat) : Int), (0 : Int))
       else if r.f r.i % 4 = 1 then
         (((r.f (r.i + 1) % GRID_SIZE : Nat) : Int), (GRID_SIZE : Int) - 1)
       else if r.f r.i % 4 = 2 then
         ((0 : Int), ((r.f (r.i + 1) % GRID_SIZE : Nat) : Int))
       else ((GRID_SIZE : Int) - 1, ((r.f (r.i + 1) % GRID_SIZE : Nat) : Int)),
       ⟨r.f, r.i + 1 + 1⟩) := by
    rcases h4 with h | h | h | h <;>
      simp [random_edge_position, choiceD, randBelow, randint0, Rng.next, h]
  refine ⟨?_, heq⟩
  rw [heq]
  have hmod : r.f (r.i + 1) % GRID_SIZE < GRID_SIZE := Nat.mod_lt _ (by decide)
  rcases h4 with h | h | h | h <;> simp [h] <;> omega

/-- Claim C8: the move delta is random.choice over exactly the five-element
list {(1,0), (-1,0), (0,1), (0,-1), (0,0)}: the sampled delta is always one of
the five, it is the list entry indexed by the draw modulo 5 (one residue per
entry, so a uniform draw gives each delta probability 1/5, in particular
staying in place, rather than 1/9), and the five entries are distinct. -/
theorem claim_C8_move_delta :
    ∀ r : Rng,
      (moveDelta r).1 ∈ moveChoices ∧
      (moveDelta r).1 = moveChoices.getD (r.f r.i % 5) (0, 0) ∧
      moveChoices.length = 5 ∧ moveChoices.Nodup := by
  intro r
  have h5 : r.f r.i % 5 = 0 ∨ r.f r.i % 5 = 1 ∨ r.f r.i % 5 = 2 ∨
      r.f r.i % 5 = 3 ∨ r.f r.i % 5 = 4 := by omega
  refine ⟨?_, ?_, rfl, by decide⟩ <;>
    rcases h5 with h | h | h | h | h <;>
      simp [moveDelta, choiceD, randBelow, Rng.next, moveChoices, h]

/-- Claim C7: the code has no ConfigurationError: with a food target above the
grid capacity the init_foods retry loop can never finish, whatever the random
draws (in the fuel model it returns none for every fuel bound); with a food
target of 0 it succeeds immediately with an empty food list, and against an
empty food list the per-creature step never changes the state string or the
ate flag, so no creature can become Fed. -/
theorem claim_C7_capacity :
    (∀ fuel r, init_foods (GRID_SIZE * GRID_SIZE + 1) fuel r = none) ∧
    (∀ fuel r, init_foods 0 fuel r = some ([], r)) ∧
    (∀ c r, (stepCreature c [] r).1.state = c.state ∧
        (stepCreature c [] r).1.ate = c.ate ∧ (stepCreature c [] r).2.1 = []) := by
  refine ⟨?_, ?_, ?_⟩
  · intro fuel r
    exact init_foods_aux_overfull _ (by omega) fuel [] r List.nodup_nil
      (by intro p hp; cases hp)
  · intro fuel r
    cases fuel <;> simp [init_foods, init_foods_aux]
  · intro c r
    simp only [stepCreature]
    split
    · exact ⟨rfl, rfl, rfl⟩
    · rw [if_neg (List.not_mem_nil _)]
      exact ⟨rfl, rfl, rfl⟩

/-- Claim C9: the simulation is a pure function of the draw stream: two runs
whose streams agree pointwise produce identical snapshot traces for any number
of ticks. -/
theorem claim_C9_determinism :
    ∀ (f g : Nat → Nat), (∀ k, f k = g k) →
      ∀ fuel n, simTrace fuel n f = simTrace fuel n g := by
  intro f g h fuel n
  have hfg : f = g := funext h
  rw [hfg]

/-- Witness for C9: two extensionally equal streams give the same 2-tick
trace. -/
theorem claim_C9_determinism_witness :
    simTrace 100 2 (fun k => k) = simTrace 100 2 (fun k => 0 + k) :=
  claim_C9_determinism (fun k => k) (fun k => 0 + k) (fun k => (Nat.zero_add k).symm) 100 2

/-- Claim C10: in every reachable state each creature's ate flag equals the
test of its state string being "waiting", and therefore end_of_day's culling by
the ate flag selects exactly the waiting (Fed) creatures. -/
theorem claim_C10_flag_state :
    (∀ s, Reachable s → ∀ c ∈ s.creatures, (c.ate = true ↔ c.state = "waiting")) ∧
    (∀ cs : List Creature, (∀ c ∈ cs, c.ate = true ↔ c.state = "waiting") →
        cs.filter (fun c => c.ate) = cs.filter (fun c => c.state == "waiting")) := by
  refine ⟨?_, filter_ate_eq⟩
  intro s hr
  induction hr with
  | init fuel r s h0 =>
    intro c hc
    exact roaming_fresh_flag ((initSim_spec fuel r s h0).2.2 c hc)
  | step fuel s s' hr ht ih =>
    exact tick_flag fuel s s' ht ih

/-- Witness for C10 at a concrete creature of a concrete reachable state. -/
theorem claim_C10_flag_state_witness :
    ((⟨20, 21, "roaming", false⟩ : Creature).ate = true ↔
      (⟨20, 21, "roaming", false⟩ : Creature).state = "waiting") :=
  claim_C10_flag_state.1 demoSim demoSim_reachable ⟨20, 21, "roaming", false⟩ (by decide)
